import Mathlib

/-!
# Verification of the news-bot aggregation pipeline

A shallow embedding of the deduplication, normalization, filtering and
aggregation logic of the news bot (`bot.py`, `database.py`, `config.py`),
together with proofs and refutations of the spec's claims about it.

Modelling conventions:
* Python strings are modelled as `List Char`.
* Python `str.lower`, `\w`, `\s` and the tokenizer character class are modelled
  over the character ranges the program actually works with (ASCII and the
  basic Cyrillic block); `lowerChar` mirrors `str.lower` on those ranges.
* Timestamps (`datetime`) are rationals measured in seconds; `timedelta`
  arithmetic becomes rational arithmetic.
* Python floats (priority scores, thresholds) are modelled as rationals.
* MD5 is modelled as an injective fingerprint: a "hash" is the exact string the
  code feeds to `hashlib.md5`, so hash equality is equality of those strings.
* Python dicts used as records become structures.  A dict key that is read
  with `.get` but never written anywhere is modelled as an `Option` field that
  creation sets to `none` (see `Topic.is_breaking`).
-/

namespace NewsBot

/-! ## Character model -/

/-- Python `\s` (whitespace) restricted to the ASCII whitespace characters:
space, tab, newline, carriage return, vertical tab, form feed. -/
def isPySpace (c : Char) : Bool :=
  c.toNat == 32 || c.toNat == 9 || c.toNat == 10 || c.toNat == 13 ||
    c.toNat == 11 || c.toNat == 12

/-- `str.lower` on the ranges used by the program: maps `A`-`Z` (65-90) and
Cyrillic `А`-`Я` (0x410-0x42F) down by 32, and `Ё` (0x401) to `ё` (0x451);
all other characters are fixed. -/
def lowerChar (c : Char) : Char :=
  if 65 ≤ c.toNat ∧ c.toNat ≤ 90 then Char.ofNat (c.toNat + 32)
  else if 0x410 ≤ c.toNat ∧ c.toNat ≤ 0x42F then Char.ofNat (c.toNat + 32)
  else if c.toNat = 0x401 then Char.ofNat 0x451
  else c

/-- Python `\w` (word character) on the modelled ranges: ASCII letters,
digits, underscore, and Cyrillic letters `а`-`я`, `А`-`Я`, `ё`, `Ё`. -/
def isWordChar (c : Char) : Bool :=
  (97 ≤ c.toNat && c.toNat ≤ 122) || (65 ≤ c.toNat && c.toNat ≤ 90) ||
  (48 ≤ c.toNat && c.toNat ≤ 57) || c.toNat == 95 ||
  (0x430 ≤ c.toNat && c.toNat ≤ 0x44F) || (0x410 ≤ c.toNat && c.toNat ≤ 0x42F) ||
  c.toNat == 0x451 || c.toNat == 0x401

/-- The tokenizer character class `[а-яa-zё0-9]` of `_title_tokens`
(`bot.py` line 81): lowercase Cyrillic `а`-`я`, `ё`, lowercase ASCII letters,
digits. -/
def isTokenChar (c : Char) : Bool :=
  (0x430 ≤ c.toNat && c.toNat ≤ 0x44F) || c.toNat == 0x451 ||
  (97 ≤ c.toNat && c.toNat ≤ 122) || (48 ≤ c.toNat && c.toNat ≤ 57)

/-! ## Python string primitives -/

/-- Python `str.strip()`: drop whitespace from both ends. -/
def pyStrip (l : List Char) : List Char :=
  List.rdropWhile isPySpace (List.dropWhile isPySpace l)

/-- Helper for `collapseWs`; the flag records whether the previous character
was whitespace (in which case further whitespace is absorbed into the single
space already emitted). -/
def collapseWsAux : Bool → List Char → List Char
  | _, [] => []
  | prevWs, c :: rest =>
    if isPySpace c then
      if prevWs then collapseWsAux true rest
      else ' ' :: collapseWsAux true rest
    else c :: collapseWsAux false rest

/-- Python `re.sub(r'\s+', ' ', s)`: replace each maximal whitespace run by a
single space. -/
def collapseWs (l : List Char) : List Char :=
  collapseWsAux false l

/-- Helper for `runsBy`: accumulates the current (reversed) run. -/
def runsByAux (p : Char → Bool) : List Char → List Char → List (List Char)
  | [], cur => if cur.isEmpty then [] else [cur.reverse]
  | c :: cs, cur =>
    if p c then runsByAux p cs (c :: cur)
    else if cur.isEmpty then runsByAux p cs [] else cur.reverse :: runsByAux p cs []

/-- The maximal runs of characters satisfying `p`, in order.
`re.findall(r'[class]+', s)` returns exactly these runs. -/
def runsBy (p : Char → Bool) (l : List Char) : List (List Char) :=
  runsByAux p l []

/-- Python `str.split()` (no separator): maximal runs of non-whitespace. -/
def pySplit (l : List Char) : List (List Char) :=
  runsBy (fun c => !isPySpace c) l

/-- Python `needle in haystack` substring test. -/
def containsSub (needle haystack : List Char) : Bool :=
  (haystack.tails).any (fun t => needle.isPrefixOf t)

/-- Python `str.strip(chars)`: drop characters belonging to `cs` from both
ends. -/
def pyStripChars (cs : List Char) (l : List Char) : List Char :=
  List.rdropWhile (fun c => c ∈ cs) (List.dropWhile (fun c => c ∈ cs) l)

/-- The repeated `for x in incoming: if x not in target: target.append(x)`
idiom (insertion-ordered union; also deduplicates within `extra` because the
accumulator grows as it goes). -/
def listUnion {α : Type} [DecidableEq α] (target extra : List α) : List α :=
  extra.foldl (fun acc x => if x ∈ acc then acc else acc ++ [x]) target

/-- Python `list(dict.fromkeys(l))`: dedup keeping first occurrences. -/
def dedupKeepFirst {α : Type} [DecidableEq α] (l : List α) : List α :=
  listUnion [] l

/-! ## `database.py`: the Normalizer -/

/-- `NewsDatabase.generate_hash` (`database.py` lines 98-113):
`md5(f"{source}|{url}|{title.lower().strip()}")`.  MD5 is modelled as an
injective fingerprint, so the hash is the hashed string itself. -/
def generate_hash (title url source : List Char) : List Char :=
  source ++ '|' :: url ++ '|' :: pyStrip (title.map lowerChar)

/-- `NewsDatabase.normalize_content` (`database.py` lines 115-129):
lowercase and strip `f"{title} {description}"`, replace each non-word
non-space character by a space, collapse whitespace, strip. -/
def normalize_content (title description : List Char) : List Char :=
  let text := pyStrip ((title ++ ' ' :: description).map lowerChar)
  let replaced := text.map (fun c => if isWordChar c || isPySpace c then c else ' ')
  pyStrip (collapseWs replaced)

/-- `NewsDatabase.generate_content_hash` (`database.py` lines 131-143):
`md5(normalize_content(...))` when the normalized text is non-empty, else the
empty string.  With MD5 as an injective fingerprint this is just the
normalized content (which is already `[]` exactly when the code returns `''`). -/
def generate_content_hash (title description : List Char) : List Char :=
  normalize_content title description

/-- `NewsDatabase.normalize_title` (`database.py` lines 145-165): lowercase,
strip, delete characters matching `[^\w\s]`, collapse whitespace, strip. -/
def normalize_title (title : List Char) : List Char :=
  let normalized := pyStrip (title.map lowerChar)
  let noPunct := normalized.filter (fun c => isWordChar c || isPySpace c)
  pyStrip (collapseWs noPunct)

/-- `NewsDatabase.normalize_url` (`database.py` lines 167-198): empty input
maps to the empty string; otherwise lowercase and strip, cut at the first
`#`, cut at the first `?`, and remove trailing slashes. -/
def normalize_url (url : List Char) : List Char :=
  if url.isEmpty then []
  else
    let normalized := pyStrip (url.map lowerChar)
    let noFragment :=
      if '#' ∈ normalized then normalized.takeWhile (fun c => c ≠ '#')
      else normalized
    let noQuery :=
      if '?' ∈ noFragment then noFragment.takeWhile (fun c => c ≠ '?')
      else noFragment
    List.rdropWhile (fun c => c == '/') noQuery

/-! ## `database.py`: the persisted store, the deduplication gate and `save_news` -/

/-- One row of the `news` table (`database.py` lines 37-49). -/
structure NewsRow where
  id : Nat
  news_hash : List Char
  title : List Char
  source : List Char
  url : List Char
  category : List Char
  content_hash : List Char
  published_at : ℚ
deriving DecidableEq

/-- The store: the rows of the `news` table plus the AUTOINCREMENT counter. -/
structure NewsDB where
  rows : List NewsRow
  nextId : Nat
deriving DecidableEq

/-- Check 1 of `is_news_published` (`database.py` lines 214-223): some stored
row has the exact `news_hash`. -/
def hashCheck (db : NewsDB) (title url source : List Char) : Bool :=
  db.rows.any (fun r => r.news_hash == generate_hash title url source)

/-- Check 2 of `is_news_published` (`database.py` lines 225-243): the
candidate's normalized URL is non-empty and equals the normalized URL of a
row published within the last 30 days. -/
def urlCheck (db : NewsDB) (now : ℚ) (url : List Char) : Bool :=
  let normalized_url := normalize_url url
  !normalized_url.isEmpty &&
    (db.rows.filter (fun r => now - 30 * 86400 < r.published_at)).any
      (fun r =>
        let normalized_published := normalize_url r.url
        !normalized_url.isEmpty && !normalized_published.isEmpty &&
          normalized_url == normalized_published)

/-- Check 3 of `is_news_published` (`database.py` lines 245-252): non-empty
content hash matching a stored row (no window). -/
def contentCheck (db : NewsDB) (title description : List Char) : Bool :=
  let content_hash := generate_content_hash title description
  !content_hash.isEmpty && db.rows.any (fun r => r.content_hash == content_hash)

/-- Check 4 of `is_news_published` (`database.py` lines 254-287): against each
title published within the last 7 days, exact normalized-title match, or — when
both word sets are non-empty — word overlap `|common| / max(|A|,|B|)` strictly
above 0.9. -/
def titleCheck (db : NewsDB) (now : ℚ) (title : List Char) : Bool :=
  let normalized_title := normalize_title title
  (db.rows.filter (fun r => now - 7 * 86400 < r.published_at)).any
    (fun r =>
      let normalized_published := normalize_title r.title
      normalized_title == normalized_published ||
        (let current_words := (pySplit normalized_title).toFinset
         let published_words := (pySplit normalized_published).toFinset
         decide (0 < current_words.card) && decide (0 < published_words.card) &&
           decide ((9 : ℚ) / 10 <
             ((current_words ∩ published_words).card : ℚ) /
               max current_words.card published_words.card)))

/-- `NewsDatabase.is_news_published` (`database.py` lines 200-289): the four
checks in order, first hit wins.  `now` stands for SQLite's `datetime('now')`. -/
def is_news_published (db : NewsDB) (now : ℚ)
    (title url source description : List Char) : Bool :=
  if hashCheck db title url source then true
  else if urlCheck db now url then true
  else if contentCheck db title description then true
  else titleCheck db now title

/-- `NewsDatabase.save_news` (`database.py` lines 330-364).  The INSERT hits
the UNIQUE constraint on `news_hash` exactly when a stored row already has
that hash; the `sqlite3.IntegrityError` handler then reads back the existing
row's id and leaves the table unchanged. -/
def save_news (db : NewsDB) (title url source category : List Char)
    (published_at : ℚ) (description : List Char) : Option Nat × NewsDB :=
  let news_hash := generate_hash title url source
  let content_hash := generate_content_hash title description
  match db.rows.find? (fun r => r.news_hash == news_hash) with
  | some r => (some r.id, db)
  | none =>
      (some db.nextId,
       { rows := db.rows ++
           [{ id := db.nextId, news_hash := news_hash, title := title,
              source := source, url := url, category := category,
              content_hash := content_hash, published_at := published_at }],
         nextId := db.nextId + 1 })

/-! ## `config.py`: the constants the modelled functions read -/

/-- `config.PUBLISH_DELAY_MINUTES` (`config.py` line 34). -/
def PUBLISH_DELAY_MINUTES : ℚ := 30

/-- `config.MIN_DESCRIPTION_LENGTH` (`config.py` line 148). -/
def MIN_DESCRIPTION_LENGTH : Nat := 80

/-- `config.LOW_VALUE_NEWS_PATTERNS` (`config.py` lines 135-145). -/
def LOW_VALUE_NEWS_PATTERNS : List (List Char) :=
  ["без подробностей".toList, "детали уточняются".toList,
   "следите за обновлениями".toList, "подробности позже".toList,
   "стало известно".toList, "шок".toList, "срочно".toList,
   "видео".toList, "фото".toList]

/-! ## `bot.py`: tokens and similarity -/

/-- The stop-word set of `NewsBot._title_tokens` (`bot.py` lines 82-85). -/
def stopWords : List (List Char) :=
  ["когда".toList, "после".toList, "будет".toList, "стало".toList,
   "этого".toList, "также".toList, "которые".toList, "россии".toList,
   "чтобы".toList, "через".toList, "между".toList, "about".toList,
   "with".toList, "that".toList, "this".toList, "from".toList]

/-- `NewsBot._title_tokens` (`bot.py` lines 80-86):
`re.findall(r"[а-яa-zё0-9]{4,}", text.lower())` — the maximal token-character
runs of length at least 4 — minus the stop words, as a set. -/
def title_tokens (text : List Char) : Finset (List Char) :=
  (((runsBy isTokenChar (text.map lowerChar)).filter
      (fun w => 4 ≤ w.length)).filter (fun w => w ∉ stopWords)).toFinset

/-- `NewsBot._similarity` (`bot.py` lines 372-378) on the two titles it reads
(`left.get('title', '')` / `right.get('title', '')`): 0 when either token set
is empty, else `|intersection| / max(|left|, |right|)`. -/
def similarity (leftTitle rightTitle : List Char) : ℚ :=
  let left_tokens := title_tokens leftTitle
  let right_tokens := title_tokens rightTitle
  if left_tokens = ∅ ∨ right_tokens = ∅ then 0
  else ((left_tokens ∩ right_tokens).card : ℚ) /
    max left_tokens.card right_tokens.card

/-! ## `bot.py`: the low-value filter -/

/-- The characters stripped from the description tail in the startswith branch
of `is_low_value_news` (`bot.py` line 271): `' .:-—'`. -/
def tailSeparators : List Char := [' ', '.', ':', '-', '—']

/-- The news items handled by the aggregator: one fetched article, as the
dict fields `bot.py` reads.  `categories` models `news.get('categories')`
with `[]` standing for an absent/falsy value (the code always guards reads
with `news.get('categories') or [news.get('category', 'general')]`). -/
structure RawItem where
  title : List Char
  url : List Char
  description : List Char
  source : List Char
  category : List Char
  categories : List (List Char)
  images : List (List Char)
  published_at : ℚ
  priority_score : ℚ
  is_breaking : Bool
deriving DecidableEq

/-- `NewsBot.is_low_value_news` (`bot.py` lines 249-288), branch by branch. -/
def is_low_value_news (news : RawItem) : Bool :=
  let title := (pyStrip news.title).map lowerChar
  let description := (pyStrip news.description).map lowerChar
  let text := pyStrip (title ++ ' ' :: description)
  if title.isEmpty || title.length < 12 then true
  else
    let normalized_title := collapseWs title
    let normalized_description := collapseWs description
    if normalized_description.isEmpty then true
    else if normalized_description.length < MIN_DESCRIPTION_LENGTH then true
    else if normalized_description == normalized_title then true
    else if normalized_title.isPrefixOf normalized_description &&
        (pyStripChars tailSeparators
          (normalized_description.drop normalized_title.length)).length < 30 then
      true
    else
      let ttoks := title_tokens normalized_title
      let dtoks := title_tokens normalized_description
      if decide (ttoks ≠ ∅) && decide (dtoks ≠ ∅) &&
          decide ((9 : ℚ) / 10 ≤ ((ttoks ∩ dtoks).card : ℚ) / max ttoks.card 1) &&
          decide (dtoks.card ≤ ttoks.card + 2) then
        true
      else if LOW_VALUE_NEWS_PATTERNS.any (fun p => containsSub p text) &&
          normalized_description.length < 220 then
        true
      else false

/-! ## `bot.py`: the Aggregator -/

/-- A pending topic: the dict built in `group_news_by_url` (`bot.py` lines
298-310).  That dict literal has exactly the eleven keys modelled as plain
fields here; it has **no** `'is_breaking'` key and no later code ever adds
one, so reads of `news.get('is_breaking')` on a topic are modelled by the
`Option` field `is_breaking`, which creation sets to `none`. -/
structure Topic where
  title : List Char
  url : List Char
  description : List Char
  source : List Char
  categories : List (List Char)
  sources : List (List Char)
  images : List (List Char)
  published_at : ℚ
  priority_score : ℚ
  first_seen_at : ℚ
  combined_items : List RawItem
  is_breaking : Option Bool
deriving DecidableEq

/-- `categories = news.get('categories') or [news.get('category', 'general')]`
(`bot.py` line 295): fall back to the single source category when the derived
list is absent/empty. -/
def effectiveCategories (news : RawItem) : List (List Char) :=
  if news.categories.isEmpty then [news.category] else news.categories

/-- The fresh-topic dict of `group_news_by_url` (`bot.py` lines 298-310). -/
def mkTopic (news : RawItem) (now : ℚ) : Topic :=
  { title := news.title
    url := news.url
    description := news.description
    source := news.source
    categories := dedupKeepFirst (effectiveCategories news)
    sources := [news.source]
    images := news.images
    published_at := news.published_at
    priority_score := news.priority_score
    first_seen_at := now
    combined_items := [news]
    is_breaking := none }

/-- The in-batch merge of `group_news_by_url`'s `else` branch (`bot.py` lines
311-326): union categories/sources/images, keep the strictly longer non-empty
description, keep the larger `published_at` and `priority_score`, append the
item to `combined_items`. -/
def mergeSameUrl (grouped : Topic) (news : RawItem) : Topic :=
  { grouped with
    categories := listUnion grouped.categories (effectiveCategories news)
    sources :=
      if news.source ∈ grouped.sources then grouped.sources
      else grouped.sources ++ [news.source]
    images := listUnion grouped.images news.images
    description :=
      if !news.description.isEmpty ∧
          grouped.description.length < news.description.length then
        news.description
      else grouped.description
    published_at :=
      if grouped.published_at < news.published_at then news.published_at
      else grouped.published_at
    priority_score :=
      if grouped.priority_score < news.priority_score then news.priority_score
      else grouped.priority_score
    combined_items := grouped.combined_items ++ [news] }

/-- First value bound to a key in an association list (Python dict lookup;
the construction below keeps keys unique). -/
def assocFind (m : List (List Char × Topic)) (key : List Char) : Option Topic :=
  (m.find? (fun kv => kv.1 == key)).map Prod.snd

/-- In-place update of the entry at `key` (Python `grouped[key]`-mutation;
keys are unique by construction, so mapping over all entries is the same). -/
def assocUpdate (m : List (List Char × Topic)) (key : List Char)
    (f : Topic → Topic) : List (List Char × Topic) :=
  m.map (fun kv => if kv.1 == key then (kv.1, f kv.2) else kv)

/-- `NewsBot.group_news_by_url` (`bot.py` lines 290-328): fold the items into
an insertion-ordered map keyed by normalized URL; a fresh key creates a topic
with `first_seen_at = now`, an existing key merges in place. -/
def group_news_by_url (news_list : List RawItem) (now : ℚ) :
    List (List Char × Topic) :=
  news_list.foldl
    (fun grouped news =>
      let normalized_url := normalize_url news.url
      match assocFind grouped normalized_url with
      | none => grouped ++ [(normalized_url, mkTopic news now)]
      | some _ => assocUpdate grouped normalized_url (fun g => mergeSameUrl g news))
    []

/-- `NewsBot._merge_into_existing` (`bot.py` lines 330-345): union
categories/sources/images, keep the strictly longer description, keep the
larger `priority_score`, concatenate `combined_items`.  It touches no other
field — in particular neither `published_at` nor `first_seen_at`. -/
def merge_into_existing (target incoming : Topic) : Topic :=
  { target with
    categories := listUnion target.categories incoming.categories
    sources := listUnion target.sources incoming.sources
    images := listUnion target.images incoming.images
    description :=
      if target.description.length < incoming.description.length then
        incoming.description
      else target.description
    priority_score :=
      if target.priority_score < incoming.priority_score then
        incoming.priority_score
      else target.priority_score
    combined_items := target.combined_items ++ incoming.combined_items }

/-- `NewsBot.add_to_pending` (`bot.py` lines 347-364): merge each grouped
topic into the pending map — by key, else into the first pending topic with
title similarity at least 0.5, else insert fresh. -/
def add_to_pending (pending : List (List Char × Topic))
    (grouped : List (List Char × Topic)) : List (List Char × Topic) :=
  grouped.foldl
    (fun pend kv =>
      match assocFind pend kv.1 with
      | some _ => assocUpdate pend kv.1 (fun ex => merge_into_existing ex kv.2)
      | none =>
          match pend.find? (fun p => decide ((1 : ℚ) / 2 ≤ similarity kv.2.title p.2.title)) with
          | some p => assocUpdate pend p.1 (fun ex => merge_into_existing ex kv.2)
          | none => pend ++ [kv])
    pending

/-- `NewsBot.is_breaking_or_urgent` (`bot.py` lines 229-230) applied to a
pending topic: `bool(news.get('is_breaking'))`. -/
def is_breaking_or_urgent (news : Topic) : Bool :=
  news.is_breaking.getD false

/-- `NewsBot._is_ready_for_publish` (`bot.py` lines 366-370): in breaking
mode a topic flagged breaking is ready immediately; otherwise readiness needs
`now - first_seen_at >= timedelta(minutes=PUBLISH_DELAY_MINUTES)`. -/
def is_ready_for_publish (news : Topic) (now : ℚ) (breaking_mode : Bool) : Bool :=
  if breaking_mode && is_breaking_or_urgent news then true
  else decide (PUBLISH_DELAY_MINUTES * 60 ≤ now - news.first_seen_at)

/-- The two merge operations a pending topic can undergo: an
`_merge_into_existing` with another grouped topic, or (inside
`group_news_by_url`, at grouping time) an in-batch merge with a raw item. -/
def applyMerge (t : Topic) : Topic ⊕ RawItem → Topic
  | Sum.inl incoming => merge_into_existing t incoming
  | Sum.inr news => mergeSameUrl t news

/-- `NewsBot._adaptive_breaking_threshold` (`bot.py` lines 784-791), with the
config values `BREAKING_NEWS_MIN_PRIORITY` (base) and
`BREAKING_DYNAMIC_THRESHOLD_DELTA` as parameters: clamp the delta at 0; a
batch of at least 25 new items raises the threshold by delta, a batch of at
most 5 lowers it by delta/2 but never below 1.0. -/
def adaptive_breaking_threshold (base deltaConfig : ℚ) (recent_count : Nat) : ℚ :=
  let delta := max deltaConfig 0
  if 25 ≤ recent_count then base + delta
  else if recent_count ≤ 5 then max 1 (base - delta * (1 / 2))
  else base

/-! ## Concrete instances used in counterexamples and witnesses -/

/-- A breaking-flagged item (after the scoring phase sets
`news['is_breaking'] = True`). -/
def itemA : RawItem :=
  { title := "Major breaking event headline".toList
    url := "https://news.example/breaking".toList
    description := "Something significant happened and details are emerging".toList
    source := "Agency".toList
    category := "general".toList
    categories := ["политика мир".toList]
    images := []
    published_at := 0
    priority_score := 12
    is_breaking := true }

/-- A non-breaking sibling item with a later `published_at`. -/
def itemB : RawItem :=
  { itemA with
    title := "Calm unrelated report".toList
    url := "https://news.example/calm".toList
    priority_score := 1
    published_at := 100
    is_breaking := false }

/-- Title of the low-value counterexample: five distinct 16-character words,
84 characters in total. -/
def lowTitleEx : List Char :=
  "abcdefghijklmnop qrstuvwxyzabcdef ghijklmnopqrstuv wxyzabcdefghijkl mnopqrstuvwxyzab".toList

/-- Description equal to `lowTitleEx` up to punctuation: a comma splits the
first word, so the collapsed strings differ although the punctuation-stripped
normalized titles agree. -/
def lowDescEx : List Char :=
  "abcdefgh,ijklmnop qrstuvwxyzabcdef ghijklmnopqrstuv wxyzabcdefghijkl mnopqrstuvwxyzab".toList

/-- The low-value counterexample item. -/
def lowItemEx : RawItem :=
  { itemA with title := lowTitleEx, description := lowDescEx }

/-- The URL witnessing that `normalize_url` is not idempotent: the cut at `?`
exposes a trailing space that only the second pass strips. -/
def urlEx : List Char := "a ?b".toList

/-- Candidate title for the exactly-0.9-overlap dedup scenario: 9 words. -/
def dupTitleA : List Char := "w0 w1 w2 w3 w4 w5 w6 w7 w8".toList

/-- Stored title for the exactly-0.9-overlap dedup scenario: the same 9 words
plus a tenth, so the overlap is 9/max(9,10) = 0.9 exactly. -/
def dupTitleB : List Char := "w0 w1 w2 w3 w4 w5 w6 w7 w8 w9".toList

/-- The stored row for the dedup scenario. -/
def dupRow : NewsRow :=
  { id := 7
    news_hash := generate_hash dupTitleB "https://old.example/b".toList "Agency".toList
    title := dupTitleB
    source := "Agency".toList
    url := "https://old.example/b".toList
    category := "политика мир".toList
    content_hash := generate_content_hash dupTitleB "old description text".toList
    published_at := 999000 }

/-- A one-row store for the dedup scenario; `now` is 1000000, so the row is
well inside every window. -/
def dupDB : NewsDB := { rows := [dupRow], nextId := 8 }

/-- Candidate URL for the dedup scenario (distinct from the stored one). -/
def dupUrlA : List Char := "https://new.example/a".toList

/-- Candidate description for the dedup scenario (distinct content hash). -/
def dupDescA : List Char := "fresh description words".toList

/-- No two adjacent whitespace characters (the shape `re.sub(r'\s+', ' ')`
leaves behind); used to characterize the fixed points of `normalize_title`. -/
abbrev NoTwoWs (l : List Char) : Prop :=
  l.Chain' (fun a b => isPySpace a = false ∨ isPySpace b = false)

-- Sanity checks for the primitives (concrete evaluation).
example : pyStrip "  ab c  ".toList = "ab c".toList := by decide
example : collapseWs "a  b \t c".toList = "a b c".toList := by decide
example : runsBy isTokenChar "ab, cdef gh09!".toList =
    ["ab".toList, "cdef".toList, "gh09".toList] := by decide
example : pySplit "  foo bar ".toList = ["foo".toList, "bar".toList] := by decide
example : containsSub "bc".toList "abcd".toList = true := by decide
example : containsSub "bd".toList "abcd".toList = false := by decide
example : lowerChar 'A' = 'a' := by decide
example : lowerChar 'Д' = 'д' := by decide
example : lowerChar 'Ё' = 'ё' := by decide
example : listUnion [1, 2] [2, 3, 3, 4] = [1, 2, 3, 4] := by decide

/-! ## Helper lemmas -/

theorem char_toNat_ofNat {n : Nat} (h : n < 55296) : (Char.ofNat n).toNat = n := by
  have hv : n.isValidChar := Or.inl h
  rw [Char.ofNat, dif_pos hv]
  simp [Char.ofNatAux, Char.toNat, UInt32.toNat]

theorem lowerChar_toNat (c : Char) :
    (lowerChar c).toNat =
      if 65 ≤ c.toNat ∧ c.toNat ≤ 90 then c.toNat + 32
      else if 0x410 ≤ c.toNat ∧ c.toNat ≤ 0x42F then c.toNat + 32
      else if c.toNat = 0x401 then 0x451
      else c.toNat := by
  rw [lowerChar]
  split_ifs with h1 h2 h3
  · exact char_toNat_ofNat (by omega)
  · exact char_toNat_ofNat (by omega)
  · exact char_toNat_ofNat (by omega)
  · rfl

theorem lowerChar_eq_self {d : Char} (h1 : ¬(65 ≤ d.toNat ∧ d.toNat ≤ 90))
    (h2 : ¬(0x410 ≤ d.toNat ∧ d.toNat ≤ 0x42F)) (h3 : ¬ d.toNat = 0x401) :
    lowerChar d = d := by
  rw [lowerChar, if_neg h1, if_neg h2, if_neg h3]

theorem lowerChar_idem (c : Char) : lowerChar (lowerChar c) = lowerChar c := by
  apply lowerChar_eq_self <;> rw [lowerChar_toNat] <;> split_ifs <;> omega

theorem isPySpace_lowerChar (c : Char) : isPySpace (lowerChar c) = isPySpace c := by
  rw [Bool.eq_iff_iff]
  simp only [isPySpace, Bool.or_eq_true, beq_iff_eq, lowerChar_toNat]
  split_ifs <;> omega

theorem mem_listUnion {α : Type} [DecidableEq α] (x : α) (extra target : List α) :
    x ∈ listUnion target extra ↔ x ∈ target ∨ x ∈ extra := by
  induction extra generalizing target with
  | nil => simp [listUnion]
  | cons c rest ih =>
    show x ∈ List.foldl _ (if c ∈ target then target else target ++ [c]) rest ↔ _
    rw [show List.foldl (fun acc x => if x ∈ acc then acc else acc ++ [x])
        (if c ∈ target then target else target ++ [c]) rest =
        listUnion (if c ∈ target then target else target ++ [c]) rest from rfl, ih]
    by_cases hc : c ∈ target
    · simp only [if_pos hc, List.mem_cons]
      constructor
      · rintro (h | h)
        · exact Or.inl h
        · exact Or.inr (Or.inr h)
      · rintro (h | rfl | h)
        · exact Or.inl h
        · exact Or.inl hc
        · exact Or.inr h
    · simp only [if_neg hc, List.mem_append, List.mem_singleton, List.mem_cons]
      tauto

theorem mem_of_mem_dropWhile {p : Char → Bool} {l : List Char} {c : Char}
    (h : c ∈ List.dropWhile p l) : c ∈ l := by
  induction l with
  | nil => simp at h
  | cons d r ih =>
    rw [List.dropWhile_cons] at h
    by_cases hd : p d
    · rw [if_pos hd] at h
      exact List.mem_cons_of_mem d (ih h)
    · rw [if_neg hd] at h
      exact h

theorem mem_of_mem_rdropWhile {p : Char → Bool} {l : List Char} {c : Char}
    (h : c ∈ List.rdropWhile p l) : c ∈ l := by
  rw [List.rdropWhile, List.mem_reverse] at h
  exact List.mem_reverse.mp (mem_of_mem_dropWhile h)

theorem mem_of_mem_pyStrip {l : List Char} {c : Char} (h : c ∈ pyStrip l) : c ∈ l :=
  mem_of_mem_dropWhile (mem_of_mem_rdropWhile h)

theorem mem_takeWhile_imp {p : Char → Bool} {l : List Char} {c : Char}
    (h : c ∈ List.takeWhile p l) : c ∈ l ∧ p c = true := by
  induction l with
  | nil => simp at h
  | cons d r ih =>
    rw [List.takeWhile_cons] at h
    by_cases hd : p d
    · rw [if_pos hd] at h
      rcases List.mem_cons.mp h with rfl | h'
      · exact ⟨List.mem_cons_self _ _, hd⟩
      · exact ⟨List.mem_cons_of_mem d (ih h').1, (ih h').2⟩
    · rw [if_neg hd] at h
      simp at h

theorem head?_dropWhile {p : Char → Bool} {l : List Char} {c : Char}
    (h : (List.dropWhile p l).head? = some c) : p c = false := by
  induction l with
  | nil => simp at h
  | cons d r ih =>
    rw [List.dropWhile_cons] at h
    by_cases hd : p d
    · rw [if_pos hd] at h
      exact ih h
    · rw [if_neg hd] at h
      simp only [List.head?_cons, Option.some.injEq] at h
      rw [← h]
      exact Bool.eq_false_iff.mpr hd

theorem dropWhile_eq_self_of_head? {p : Char → Bool} {l : List Char}
    (h : ∀ c, l.head? = some c → p c = false) : List.dropWhile p l = l := by
  cases l with
  | nil => rfl
  | cons d r =>
    rw [List.dropWhile_cons, if_neg]
    rw [h d rfl]
    exact Bool.false_ne_true

theorem head?_append_of_some {l t : List Char} {c : Char} (h : l.head? = some c) :
    (l ++ t).head? = some c := by
  cases l with
  | nil => simp at h
  | cons d r => simpa using h

theorem pyStrip_idem (l : List Char) : pyStrip (pyStrip l) = pyStrip l := by
  rw [pyStrip, pyStrip]
  have hdrop : List.dropWhile isPySpace
      (List.rdropWhile isPySpace (List.dropWhile isPySpace l)) =
      List.rdropWhile isPySpace (List.dropWhile isPySpace l) := by
    apply dropWhile_eq_self_of_head?
    intro c hc
    have hpre := List.rdropWhile_prefix isPySpace (List.dropWhile isPySpace l)
    obtain ⟨t, ht⟩ := hpre
    have : (List.dropWhile isPySpace l).head? = some c := by
      rw [← ht]
      exact head?_append_of_some hc
    exact head?_dropWhile this
  rw [hdrop, List.rdropWhile_idempotent]

theorem map_eq_self_of {l : List Char} {f : Char → Char} (h : ∀ c ∈ l, f c = c) :
    l.map f = l := by
  induction l with
  | nil => rfl
  | cons d r ih =>
    rw [List.map_cons, h d (List.mem_cons_self _ _),
      ih (fun c hc => h c (List.mem_cons_of_mem d hc))]

theorem mem_collapseWsAux {c : Char} {l : List Char} :
    ∀ {b : Bool}, c ∈ collapseWsAux b l → (c ∈ l ∧ isPySpace c = false) ∨ c = ' ' := by
  induction l with
  | nil =>
    intro b h
    simp [collapseWsAux] at h
  | cons d r ih =>
    intro b h
    simp only [collapseWsAux] at h
    by_cases hd : isPySpace d
    · rw [if_pos hd] at h
      cases b with
      | true =>
        rw [if_pos rfl] at h
        rcases ih h with ⟨hm, hws⟩ | hsp
        · exact Or.inl ⟨List.mem_cons_of_mem d hm, hws⟩
        · exact Or.inr hsp
      | false =>
        rw [if_neg Bool.false_ne_true] at h
        rcases List.mem_cons.mp h with rfl | h'
        · exact Or.inr rfl
        · rcases ih h' with ⟨hm, hws⟩ | hsp
          · exact Or.inl ⟨List.mem_cons_of_mem d hm, hws⟩
          · exact Or.inr hsp
    · rw [if_neg hd] at h
      rcases List.mem_cons.mp h with rfl | h'
      · exact Or.inl ⟨List.mem_cons_self _ _, Bool.eq_false_iff.mpr hd⟩
      · rcases ih h' with ⟨hm, hws⟩ | hsp
        · exact Or.inl ⟨List.mem_cons_of_mem d hm, hws⟩
        · exact Or.inr hsp

theorem collapse_props (l : List Char) :
    NoTwoWs (collapseWsAux false l) ∧ NoTwoWs (collapseWsAux true l) ∧
      ∀ c ∈ (collapseWsAux true l).head?, isPySpace c = false := by
  induction l with
  | nil => exact ⟨List.chain'_nil, List.chain'_nil, by simp [collapseWsAux]⟩
  | cons d r ih =>
    obtain ⟨ihf, iht, ihh⟩ := ih
    by_cases hd : isPySpace d
    · have ef : collapseWsAux false (d :: r) = ' ' :: collapseWsAux true r := by
        simp [collapseWsAux, hd]
      have et : collapseWsAux true (d :: r) = collapseWsAux true r := by
        simp [collapseWsAux, hd]
      refine ⟨?_, ?_, ?_⟩
      · rw [ef]
        exact List.chain'_cons'.mpr ⟨fun y hy => Or.inr (ihh y hy), iht⟩
      · rw [et]
        exact iht
      · rw [et]
        exact ihh
    · have ef : collapseWsAux false (d :: r) = d :: collapseWsAux false r := by
        simp [collapseWsAux, hd]
      have et : collapseWsAux true (d :: r) = d :: collapseWsAux false r := by
        simp [collapseWsAux, hd]
      have hchain : NoTwoWs (d :: collapseWsAux false r) :=
        List.chain'_cons'.mpr ⟨fun y _ => Or.inl (Bool.eq_false_iff.mpr hd), ihf⟩
      refine ⟨?_, ?_, ?_⟩
      · rw [ef]
        exact hchain
      · rw [et]
        exact hchain
      · rw [et]
        intro c hc
        simp only [List.head?_cons, Option.mem_def, Option.some.injEq] at hc
        rw [← hc]
        exact Bool.eq_false_iff.mpr hd

theorem collapseWsAux_eq_self (l : List Char)
    (hsp : ∀ c ∈ l, isPySpace c = true → c = ' ') (hnt : NoTwoWs l) :
    collapseWsAux false l = l ∧
      ((∀ c ∈ l.head?, isPySpace c = false) → collapseWsAux true l = l) := by
  induction l with
  | nil => exact ⟨rfl, fun _ => rfl⟩
  | cons d r ih =>
    have hsp' : ∀ c ∈ r, isPySpace c = true → c = ' ' :=
      fun c hc => hsp c (List.mem_cons_of_mem d hc)
    have hnt' : NoTwoWs r := hnt.tail
    obtain ⟨ihf, iht⟩ := ih hsp' hnt'
    by_cases hd : isPySpace d
    · have hdsp : d = ' ' := hsp d (List.mem_cons_self _ _) hd
      have hr : collapseWsAux true r = r := by
        cases r with
        | nil => rfl
        | cons e s =>
          apply iht
          intro c hc
          simp only [List.head?_cons, Option.mem_def, Option.some.injEq] at hc
          rw [← hc]
          rcases (List.chain'_cons.mp hnt).1 with h | h
          · exact absurd hd (by simp [h])
          · exact h
      constructor
      · simp only [collapseWsAux, if_pos hd, if_neg Bool.false_ne_true]
        rw [hr, hdsp]
      · intro hh
        have hcontra := hh d (by simp)
        rw [hd] at hcontra
        exact absurd hcontra (by simp)
    · constructor
      · simp only [collapseWsAux, if_neg hd]
        rw [ihf]
      · intro _
        simp only [collapseWsAux, if_neg hd]
        rw [ihf]

theorem NoTwoWs_pyStrip {l : List Char} (h : NoTwoWs l) : NoTwoWs (pyStrip l) := by
  have h1 : NoTwoWs (List.dropWhile isPySpace l) :=
    List.Chain'.suffix h (List.dropWhile_suffix _)
  have hpre := List.rdropWhile_prefix isPySpace (List.dropWhile isPySpace l)
  exact List.Chain'.prefix h1 hpre

/-- Any fixed point of the whole `normalize_title` pipeline: all characters
already lowered, all characters word characters or spaces, every whitespace
character is a plain space, stripped at both ends, no two adjacent spaces. -/
theorem normalize_title_fixed {x : List Char}
    (hlow : ∀ c ∈ x, lowerChar c = c)
    (hkeep : ∀ c ∈ x, (isWordChar c || isPySpace c) = true)
    (hsp : ∀ c ∈ x, isPySpace c = true → c = ' ')
    (hstrip : pyStrip x = x)
    (hnt : NoTwoWs x) :
    normalize_title x = x := by
  simp only [normalize_title]
  rw [map_eq_self_of hlow, hstrip, List.filter_eq_self.mpr hkeep, collapseWs,
    (collapseWsAux_eq_self x hsp hnt).1, hstrip]

theorem normalize_title_idem (t : List Char) :
    normalize_title (normalize_title t) = normalize_title t := by
  have hx : normalize_title t =
      pyStrip (collapseWsAux false ((pyStrip (t.map lowerChar)).filter
        (fun c => isWordChar c || isPySpace c))) := rfl
  apply normalize_title_fixed
  · intro c hc
    rw [hx] at hc
    rcases mem_collapseWsAux (mem_of_mem_pyStrip hc) with ⟨hf, _⟩ | rfl
    · obtain ⟨hs, _⟩ := List.mem_filter.mp hf
      obtain ⟨d, _, rfl⟩ := List.mem_map.mp (mem_of_mem_pyStrip hs)
      exact lowerChar_idem d
    · decide
  · intro c hc
    rw [hx] at hc
    rcases mem_collapseWsAux (mem_of_mem_pyStrip hc) with ⟨hf, _⟩ | rfl
    · exact (List.mem_filter.mp hf).2
    · decide
  · intro c hc hws
    rw [hx] at hc
    rcases mem_collapseWsAux (mem_of_mem_pyStrip hc) with ⟨_, hnw⟩ | rfl
    · rw [hnw] at hws
      exact absurd hws Bool.false_ne_true
    · rfl
  · rw [hx]
    exact pyStrip_idem _
  · rw [hx]
    exact NoTwoWs_pyStrip (collapse_props _).1

theorem dropWhile_eq_self_of_no {p : Char → Bool} {l : List Char}
    (h : ∀ c ∈ l, p c = false) : List.dropWhile p l = l := by
  cases l with
  | nil => rfl
  | cons d r =>
    rw [List.dropWhile_cons, if_neg]
    rw [h d (List.mem_cons_self _ _)]
    exact Bool.false_ne_true

theorem pyStrip_eq_self_of_no_ws {l : List Char} (h : ∀ c ∈ l, isPySpace c = false) :
    pyStrip l = l := by
  rw [pyStrip, dropWhile_eq_self_of_no h, List.rdropWhile,
    dropWhile_eq_self_of_no (fun c hc => h c (List.mem_reverse.mp hc)),
    List.reverse_reverse]

/-- Membership passes through the `if a ∈ l then takeWhile … else l` shape of
the fragment/query cut in `normalize_url`. -/
theorem mem_of_mem_cut {P : Prop} [Decidable P] {p : Char → Bool} {l : List Char}
    {c : Char} (h : c ∈ (if P then l.takeWhile p else l)) : c ∈ l := by
  split_ifs at h
  · exact (mem_takeWhile_imp h).1
  · exact h

/-- The cut character itself never survives the cut. -/
theorem not_mem_cut (a : Char) (l : List Char) :
    a ∉ (if a ∈ l then l.takeWhile (fun c => c ≠ a) else l) := by
  split_ifs with h
  · intro hmem
    have hpred := (mem_takeWhile_imp hmem).2
    simp at hpred
  · exact h

theorem mem_normalize_url {u : List Char} {c : Char} (h : c ∈ normalize_url u) :
    c ∈ u.map lowerChar := by
  rw [normalize_url] at h
  by_cases hu : u.isEmpty
  · rw [if_pos hu] at h
    simp at h
  · rw [if_neg hu] at h
    exact mem_of_mem_pyStrip (mem_of_mem_cut (mem_of_mem_cut (mem_of_mem_rdropWhile h)))

theorem normalize_url_no_special (u : List Char) :
    '#' ∉ normalize_url u ∧ '?' ∉ normalize_url u := by
  rw [normalize_url]
  by_cases hu : u.isEmpty
  · rw [if_pos hu]
    simp
  · rw [if_neg hu]
    constructor
    · intro hmem
      exact not_mem_cut '#' (pyStrip (u.map lowerChar))
        (mem_of_mem_cut (mem_of_mem_rdropWhile hmem))
    · intro hmem
      exact not_mem_cut '?' _ (mem_of_mem_rdropWhile hmem)

theorem normalize_url_rdrop_fixed (u : List Char) :
    List.rdropWhile (fun c => c == '/') (normalize_url u) = normalize_url u := by
  rw [normalize_url]
  by_cases hu : u.isEmpty
  · rw [if_pos hu]
    simp [List.rdropWhile]
  · rw [if_neg hu]
    exact List.rdropWhile_idempotent _ _

/-- Any fixed point of the whole `normalize_url` pipeline: already lowered,
no whitespace, no `#` or `?`, no trailing slash. -/
theorem normalize_url_fixed {x : List Char}
    (hlow : ∀ c ∈ x, lowerChar c = c)
    (hws : ∀ c ∈ x, isPySpace c = false)
    (hhash : '#' ∉ x) (hquery : '?' ∉ x)
    (hslash : List.rdropWhile (fun c => c == '/') x = x) :
    normalize_url x = x := by
  by_cases hx : x.isEmpty
  · rw [normalize_url, if_pos hx]
    exact (List.isEmpty_iff.mp hx).symm
  · rw [normalize_url, if_neg hx]
    have h1 : pyStrip (x.map lowerChar) = x := by
      rw [map_eq_self_of hlow]
      exact pyStrip_eq_self_of_no_ws hws
    simp only [h1]
    rw [if_neg hhash, if_neg hquery]
    exact hslash

theorem normalize_url_idem_of_no_ws (u : List Char)
    (h : ∀ c ∈ u, isPySpace c = false) :
    normalize_url (normalize_url u) = normalize_url u := by
  apply normalize_url_fixed
  · intro c hc
    obtain ⟨d, _, rfl⟩ := List.mem_map.mp (mem_normalize_url hc)
    exact lowerChar_idem d
  · intro c hc
    obtain ⟨d, hd, rfl⟩ := List.mem_map.mp (mem_normalize_url hc)
    rw [isPySpace_lowerChar]
    exact h d hd
  · exact (normalize_url_no_special u).1
  · exact (normalize_url_no_special u).2
  · exact normalize_url_rdrop_fixed u

/-- A predicate failing on every row fails on every filtered subset of the
rows. -/
theorem any_filter_false {α : Type} (p q : α → Bool) (l : List α)
    (h : l.any q = false) : (l.filter p).any q = false := by
  cases hq : (l.filter p).any q
  · rfl
  · exfalso
    obtain ⟨x, hx, hqx⟩ := List.any_eq_true.mp hq
    have htrue := List.any_eq_true.mpr ⟨x, List.mem_of_mem_filter hx, hqx⟩
    rw [h] at htrue
    exact Bool.false_ne_true htrue

/-- The URL check fails whenever no stored row at all (even ignoring the
30-day window) has a matching normalized URL. -/
theorem urlCheck_eq_false_of (db : NewsDB) (now : ℚ) (url : List Char)
    (h : db.rows.any (fun r =>
        !(normalize_url url).isEmpty && !(normalize_url r.url).isEmpty &&
          normalize_url url == normalize_url r.url) = false) :
    urlCheck db now url = false := by
  simp only [urlCheck]
  rw [any_filter_false _ _ _ h, Bool.and_false]

/-- `first_seen_at` is untouched by both merge operations, hence by any
sequence of them. -/
theorem foldl_applyMerge_first_seen_at (merges : List (Topic ⊕ RawItem)) (t : Topic) :
    (merges.foldl applyMerge t).first_seen_at = t.first_seen_at := by
  induction merges generalizing t with
  | nil => rfl
  | cons m rest ih =>
    rw [List.foldl_cons, ih]
    cases m <;> rfl

/-- `title` and `url` are untouched by both merge operations. -/
theorem foldl_applyMerge_title_url (merges : List (Topic ⊕ RawItem)) (t : Topic) :
    (merges.foldl applyMerge t).title = t.title ∧
      (merges.foldl applyMerge t).url = t.url := by
  induction merges generalizing t with
  | nil => exact ⟨rfl, rfl⟩
  | cons m rest ih =>
    rw [List.foldl_cons]
    have h := ih (applyMerge t m)
    have ht : (applyMerge t m).title = t.title := by cases m <;> rfl
    have hu : (applyMerge t m).url = t.url := by cases m <;> rfl
    exact ⟨h.1.trans ht, h.2.trans hu⟩

example : normalize_title "  Hello,  WORLD!! ".toList = "hello world".toList := by decide
example : normalize_url "https://A.com/1?ref=tg".toList = "https://a.com/1".toList := by decide
example : normalize_url "https://a.com/x/#frag".toList = "https://a.com/x".toList := by decide
example : normalize_url "".toList = [] := by decide
example : generate_hash "T One".toList "u".toList "s".toList = "s|u|t one".toList := by decide
example : normalize_content "A b!".toList "C".toList = "a b c".toList := by decide

/-! ## Claims -/

/-- Claim C1: a pending topic created by `group_news_by_url` with
`first_seen_at = T` keeps `first_seen_at = T` through every sequence of
merges (both `_merge_into_existing` merges and in-batch same-URL merges), and
under non-breaking processing (`breaking_mode = false`)
`_is_ready_for_publish` returns `false` at every `now` with
`now - T < PUBLISH_DELAY_MINUTES` (30 minutes; times are in seconds). -/
theorem claim_C1_maturation_invariant (news : RawItem) (T : ℚ)
    (merges : List (Topic ⊕ RawItem)) (now : ℚ)
    (h : now - T < PUBLISH_DELAY_MINUTES * 60) :
    (merges.foldl applyMerge (mkTopic news T)).first_seen_at = T ∧
      is_ready_for_publish (merges.foldl applyMerge (mkTopic news T)) now false = false := by
  have hfs : (merges.foldl applyMerge (mkTopic news T)).first_seen_at = T :=
    foldl_applyMerge_first_seen_at merges (mkTopic news T)
  refine ⟨hfs, ?_⟩
  rw [is_ready_for_publish, Bool.false_and, if_neg Bool.false_ne_true, hfs]
  exact decide_eq_false (not_le.mpr h)

/-- Witness for C1: one concrete merge, checked one minute after creation. -/
theorem claim_C1_witness :
    (60 : ℚ) - 0 < PUBLISH_DELAY_MINUTES * 60 ∧
      (([Sum.inl (mkTopic itemB 0)].foldl applyMerge (mkTopic itemA 0)).first_seen_at = 0 ∧
        is_ready_for_publish
          ([Sum.inl (mkTopic itemB 0)].foldl applyMerge (mkTopic itemA 0)) 60 false = false) :=
  ⟨by norm_num [PUBLISH_DELAY_MINUTES],
   claim_C1_maturation_invariant itemA 0 [Sum.inl (mkTopic itemB 0)] 60
     (by norm_num [PUBLISH_DELAY_MINUTES])⟩

/-- Claim C2 (evaluation at the failing input): `itemA` is flagged
`is_breaking = True`, yet the pending topic that `group_news_by_url` creates
for it carries no `is_breaking` key (`Topic.is_breaking = none`), so under
breaking-only processing one minute after creation `_is_ready_for_publish`
returns `false` — the code never matures it early, contradicting the claimed
breaking bypass.  The non-breaking sibling is (as claimed) also not ready. -/
theorem claim_C2_breaking_bypass_failure :
    itemA.is_breaking = true ∧ itemB.is_breaking = false ∧
    group_news_by_url [itemA, itemB] 0 =
      [(normalize_url itemA.url, mkTopic itemA 0),
       (normalize_url itemB.url, mkTopic itemB 0)] ∧
    (mkTopic itemA 0).is_breaking = none ∧
    is_ready_for_publish (mkTopic itemA 0) 60 true = false ∧
    is_ready_for_publish (mkTopic itemB 0) 60 true = false := by
  have hnotready : ∀ news : RawItem, is_ready_for_publish (mkTopic news 0) 60 true = false := by
    intro news
    rw [is_ready_for_publish]
    have hb : (true && is_breaking_or_urgent (mkTopic news 0)) = false := rfl
    rw [hb, if_neg Bool.false_ne_true]
    exact decide_eq_false (show ¬ ((30 : ℚ) * 60 ≤ 60 - 0) by norm_num)
  exact ⟨rfl, rfl, by decide, rfl, hnotready itemA, hnotready itemB⟩

/-- Counterexample to C3 as stated: `_merge_into_existing` does not update
`published_at`, so merging an incoming topic with a later `published_at`
leaves the target's earlier value, not the maximum. -/
theorem claim_C3_counterexample :
    (mkTopic itemA 0).published_at < (mkTopic itemB 0).published_at ∧
    (merge_into_existing (mkTopic itemA 0) (mkTopic itemB 0)).published_at ≠
      max (mkTopic itemA 0).published_at (mkTopic itemB 0).published_at := by
  exact ⟨by decide, by decide⟩

/-- Claim C3 (amended): `_merge_into_existing` unions categories, sources and
images, keeps the longer description, keeps the maximum `priority_score`,
concatenates `combined_items`, and leaves `published_at` and `first_seen_at`
unchanged (it does **not** take the maximum `published_at`). -/
theorem claim_C3_merge_spec (target incoming : Topic) :
    (∀ c, c ∈ (merge_into_existing target incoming).categories ↔
      c ∈ target.categories ∨ c ∈ incoming.categories) ∧
    (∀ s, s ∈ (merge_into_existing target incoming).sources ↔
      s ∈ target.sources ∨ s ∈ incoming.sources) ∧
    (∀ i, i ∈ (merge_into_existing target incoming).images ↔
      i ∈ target.images ∨ i ∈ incoming.images) ∧
    ((merge_into_existing target incoming).description = target.description ∨
      (merge_into_existing target incoming).description = incoming.description) ∧
    (merge_into_existing target incoming).description.length =
      max target.description.length incoming.description.length ∧
    (merge_into_existing target incoming).priority_score =
      max target.priority_score incoming.priority_score ∧
    (merge_into_existing target incoming).published_at = target.published_at ∧
    (merge_into_existing target incoming).first_seen_at = target.first_seen_at ∧
    (merge_into_existing target incoming).combined_items =
      target.combined_items ++ incoming.combined_items := by
  have hdesc : (merge_into_existing target incoming).description =
      if target.description.length < incoming.description.length then
        incoming.description
      else target.description := rfl
  have hprio : (merge_into_existing target incoming).priority_score =
      if target.priority_score < incoming.priority_score then
        incoming.priority_score
      else target.priority_score := rfl
  refine ⟨fun c => mem_listUnion c incoming.categories target.categories,
    fun s => mem_listUnion s incoming.sources target.sources,
    fun i => mem_listUnion i incoming.images target.images, ?_, ?_, ?_, rfl, rfl, rfl⟩
  · rw [hdesc]
    split_ifs
    · exact Or.inr rfl
    · exact Or.inl rfl
  · rw [hdesc]
    split_ifs with hlen
    · exact (max_eq_right hlen.le).symm
    · exact (max_eq_left (not_lt.mp hlen)).symm
  · rw [hprio]
    split_ifs with hp
    · exact (max_eq_right hp.le).symm
    · exact (max_eq_left (not_lt.mp hp)).symm

/-- Claim C4: for a candidate that escapes the exact-hash, normalized-URL and
content-hash checks, the gate reports a duplicate iff some stored row in the
7-day window has an equal normalized title or a word overlap
`|common| / max(|A|,|B|)` strictly greater than 0.9 (so an overlap of exactly
0.9 with unequal titles is not a duplicate — see the witness, which
instantiates exactly that boundary). -/
theorem claim_C4_dedup_title_stage (db : NewsDB) (now : ℚ)
    (title url source description : List Char)
    (h1 : hashCheck db title url source = false)
    (h2 : urlCheck db now url = false)
    (h3 : contentCheck db title description = false) :
    is_news_published db now title url source description = true ↔
      ∃ r ∈ db.rows, now - 7 * 86400 < r.published_at ∧
        (normalize_title title = normalize_title r.title ∨
          (9 : ℚ) / 10 <
            (((pySplit (normalize_title title)).toFinset ∩
                (pySplit (normalize_title r.title)).toFinset).card : ℚ) /
              max (pySplit (normalize_title title)).toFinset.card
                (pySplit (normalize_title r.title)).toFinset.card) := by
  rw [is_news_published, h1, h2, h3]
  rw [if_neg Bool.false_ne_true, if_neg Bool.false_ne_true, if_neg Bool.false_ne_true]
  simp only [titleCheck, List.any_eq_true]
  constructor
  · rintro ⟨r, hrmem, hpred⟩
    rw [List.mem_filter] at hrmem
    obtain ⟨hmem, hwin⟩ := hrmem
    refine ⟨r, hmem, by simpa using hwin, ?_⟩
    simp only [Bool.or_eq_true, beq_iff_eq, Bool.and_eq_true, decide_eq_true_eq] at hpred
    rcases hpred with heq | ⟨⟨_, _⟩, hlt⟩
    · exact Or.inl heq
    · exact Or.inr hlt
  · rintro ⟨r, hmem, hwin, hor⟩
    refine ⟨r, List.mem_filter.mpr ⟨hmem, by simpa using hwin⟩, ?_⟩
    simp only [Bool.or_eq_true, beq_iff_eq, Bool.and_eq_true, decide_eq_true_eq]
    rcases hor with heq | hlt
    · exact Or.inl heq
    · refine Or.inr ⟨⟨?_, ?_⟩, hlt⟩
      · by_contra hc
        have hz : (pySplit (normalize_title title)).toFinset.card = 0 := by omega
        rw [Finset.card_eq_zero.mp hz] at hlt
        rw [Finset.empty_inter] at hlt
        norm_num at hlt
      · by_contra hc
        have hz : (pySplit (normalize_title r.title)).toFinset.card = 0 := by omega
        rw [Finset.card_eq_zero.mp hz] at hlt
        rw [Finset.inter_empty] at hlt
        norm_num at hlt

/-- Witness for C4: a store whose only row shares 9 of its 10 title words
with the candidate — overlap exactly 0.9, unequal normalized titles — and
the gate answers "not a duplicate". -/
theorem claim_C4_witness :
    hashCheck dupDB dupTitleA dupUrlA "Agency".toList = false ∧
    urlCheck dupDB 1000000 dupUrlA = false ∧
    contentCheck dupDB dupTitleA dupDescA = false ∧
    (is_news_published dupDB 1000000 dupTitleA dupUrlA "Agency".toList dupDescA = true ↔
      ∃ r ∈ dupDB.rows, (1000000 : ℚ) - 7 * 86400 < r.published_at ∧
        (normalize_title dupTitleA = normalize_title r.title ∨
          (9 : ℚ) / 10 <
            (((pySplit (normalize_title dupTitleA)).toFinset ∩
                (pySplit (normalize_title r.title)).toFinset).card : ℚ) /
              max (pySplit (normalize_title dupTitleA)).toFinset.card
                (pySplit (normalize_title r.title)).toFinset.card)) ∧
    is_news_published dupDB 1000000 dupTitleA dupUrlA "Agency".toList dupDescA = false := by
  have hh : hashCheck dupDB dupTitleA dupUrlA "Agency".toList = false := by decide
  have hu : urlCheck dupDB 1000000 dupUrlA = false :=
    urlCheck_eq_false_of dupDB 1000000 dupUrlA (by decide)
  have hc : contentCheck dupDB dupTitleA dupDescA = false := by decide
  have hiff := claim_C4_dedup_title_stage dupDB 1000000 dupTitleA dupUrlA
    "Agency".toList dupDescA hh hu hc
  have hrhs : ¬ ∃ r ∈ dupDB.rows, (1000000 : ℚ) - 7 * 86400 < r.published_at ∧
      (normalize_title dupTitleA = normalize_title r.title ∨
        (9 : ℚ) / 10 <
          (((pySplit (normalize_title dupTitleA)).toFinset ∩
              (pySplit (normalize_title r.title)).toFinset).card : ℚ) /
            max (pySplit (normalize_title dupTitleA)).toFinset.card
              (pySplit (normalize_title r.title)).toFinset.card) := by
    rintro ⟨r, hr, hwin, heq | hlt⟩
    · have hrd : r = dupRow := by
        have : r ∈ [dupRow] := hr
        simpa using this
      rw [hrd] at heq
      exact absurd heq (by decide)
    · have hrd : r = dupRow := by
        have : r ∈ [dupRow] := hr
        simpa using this
      rw [hrd] at hlt
      have e1 : (pySplit (normalize_title dupTitleA)).toFinset.card = 9 := by decide
      have e2 : (pySplit (normalize_title dupRow.title)).toFinset.card = 10 := by decide
      have e3 : ((pySplit (normalize_title dupTitleA)).toFinset ∩
          (pySplit (normalize_title dupRow.title)).toFinset).card = 9 := by decide
      rw [e1, e2, e3] at hlt
      norm_num at hlt
  refine ⟨hh, hu, hc, hiff, ?_⟩
  cases hp : is_news_published dupDB 1000000 dupTitleA dupUrlA "Agency".toList dupDescA
  · rfl
  · exact absurd (hiff.mp hp) hrhs

/-- Claim C5: the title-token similarity is within `[0, 1]`, is 1 on any
title with at least one token, and is symmetric. -/
theorem claim_C5_similarity_props (a b : List Char) :
    (0 ≤ similarity a b ∧ similarity a b ≤ 1) ∧
    (title_tokens a ≠ ∅ → similarity a a = 1) ∧
    similarity a b = similarity b a := by
  refine ⟨⟨?_, ?_⟩, ?_, ?_⟩
  · rw [similarity]
    split_ifs with h
    · exact le_refl 0
    · exact div_nonneg (Nat.cast_nonneg _) (Nat.cast_nonneg _)
  · rw [similarity]
    split_ifs with h
    · norm_num
    · push_neg at h
      have hpos : 0 < (title_tokens a).card :=
        Finset.card_pos.mpr (Finset.nonempty_iff_ne_empty.mpr h.1)
      have hden : (0 : ℚ) <
          ((max (title_tokens a).card (title_tokens b).card : ℕ) : ℚ) := by
        exact_mod_cast lt_of_lt_of_le hpos (le_max_left _ _)
      rw [div_le_one hden]
      exact_mod_cast le_trans (Finset.card_le_card Finset.inter_subset_left)
        (le_max_left _ _)
  · intro h
    rw [similarity, if_neg (by simpa using h)]
    rw [Finset.inter_self, max_self]
    have hpos : (0 : ℚ) < ((title_tokens a).card : ℚ) := by
      exact_mod_cast Finset.card_pos.mpr (Finset.nonempty_iff_ne_empty.mpr h)
    exact div_self hpos.ne'
  · by_cases h : title_tokens a = ∅ ∨ title_tokens b = ∅
    · rw [similarity, similarity, if_pos h, if_pos h.symm]
    · rw [similarity, similarity, if_neg h, if_neg (fun hc => h hc.symm)]
      rw [Finset.inter_comm, max_comm]

/-- Witness for C5: concrete titles with at least one token. -/
theorem claim_C5_witness :
    title_tokens "hello world".toList ≠ ∅ ∧
    similarity "hello world".toList "hello world".toList = 1 ∧
    similarity "hello world".toList "quite different".toList =
      similarity "quite different".toList "hello world".toList :=
  ⟨by decide,
   (claim_C5_similarity_props "hello world".toList "hello world".toList).2.1 (by decide),
   (claim_C5_similarity_props "hello world".toList "quite different".toList).2.2⟩

/-- Counterexample to C6 as stated: `normalize_url` is not idempotent on all
strings.  On `"a ?b"` the query cut exposes a trailing space (`"a "`), which
only the second pass strips to `"a"`. -/
theorem claim_C6_counterexample :
    normalize_url (normalize_url urlEx) ≠ normalize_url urlEx := by decide

/-- Claim C6 (amended): `normalize_title` is idempotent on every string;
`normalize_url` is idempotent on every string containing no whitespace (on
strings with interior whitespace before a `#`/`?` it can fail, see the
counterexample). -/
theorem claim_C6_normalization_idempotence :
    (∀ t : List Char, normalize_title (normalize_title t) = normalize_title t) ∧
    ∀ u : List Char, (∀ c ∈ u, isPySpace c = false) →
      normalize_url (normalize_url u) = normalize_url u :=
  ⟨normalize_title_idem, normalize_url_idem_of_no_ws⟩

/-- Witness for C6: a concrete whitespace-free URL and a concrete title. -/
theorem claim_C6_witness :
    (∀ c ∈ "https://Ex.com/path/?q=1#frag".toList, isPySpace c = false) ∧
    normalize_url (normalize_url "https://Ex.com/path/?q=1#frag".toList) =
      normalize_url "https://Ex.com/path/?q=1#frag".toList ∧
    normalize_title (normalize_title "  Some,, NEWS Title!! ".toList) =
      normalize_title "  Some,, NEWS Title!! ".toList :=
  ⟨by decide, claim_C6_normalization_idempotence.2 _ (by decide),
   claim_C6_normalization_idempotence.1 _⟩

/-- Counterexample to C7 as stated: with base threshold 1/2 and delta 0, the
threshold for a 30-item batch (1/2) is strictly below the threshold for a
3-item batch (the 1.0 floor), so the claimed monotonicity fails for that
configuration. -/
theorem claim_C7_counterexample :
    ¬ (adaptive_breaking_threshold (1 / 2) 0 3 ≤
        adaptive_breaking_threshold (1 / 2) 0 30) := by
  rw [adaptive_breaking_threshold, adaptive_breaking_threshold]
  rw [if_neg (by omega), if_pos (by omega), if_pos (by omega)]
  norm_num

/-- Claim C7 (amended): with the delta clamped at 0 as the code does, a batch
of ≥ 25 items yields `base + delta`, a batch of ≤ 5 yields
`max 1 (base - delta/2)`, and the 30-vs-3 monotonicity holds provided
`base + delta ≥ 1` (it fails below that, see the counterexample). -/
theorem claim_C7_threshold_spec (base deltaConfig : ℚ) :
    ((1 : ℚ) ≤ base + max deltaConfig 0 →
      adaptive_breaking_threshold base deltaConfig 3 ≤
        adaptive_breaking_threshold base deltaConfig 30) ∧
    (∀ n : Nat, 25 ≤ n →
      adaptive_breaking_threshold base deltaConfig n = base + max deltaConfig 0) ∧
    (∀ n : Nat, n ≤ 5 →
      adaptive_breaking_threshold base deltaConfig n =
        max 1 (base - max deltaConfig 0 * (1 / 2))) := by
  have hd : (0 : ℚ) ≤ max deltaConfig 0 := le_max_right _ _
  refine ⟨?_, ?_, ?_⟩
  · intro h
    rw [adaptive_breaking_threshold, adaptive_breaking_threshold]
    rw [if_neg (by omega), if_pos (by omega), if_pos (by omega)]
    exact max_le h (by linarith)
  · intro n hn
    rw [adaptive_breaking_threshold, if_pos hn]
  · intro n hn
    rw [adaptive_breaking_threshold, if_neg (by omega), if_pos hn]

/-- Witness for C7: base 2, delta 1 satisfies `base + delta ≥ 1`. -/
theorem claim_C7_witness :
    (1 : ℚ) ≤ 2 + max 1 0 ∧
    adaptive_breaking_threshold 2 1 3 ≤ adaptive_breaking_threshold 2 1 30 ∧
    adaptive_breaking_threshold 2 1 30 = 2 + max 1 0 ∧
    adaptive_breaking_threshold 2 1 3 = max 1 (2 - max 1 0 * (1 / 2)) :=
  ⟨by norm_num, (claim_C7_threshold_spec 2 1).1 (by norm_num),
   (claim_C7_threshold_spec 2 1).2.1 30 (by norm_num),
   (claim_C7_threshold_spec 2 1).2.2 3 (by norm_num)⟩

/-- Counterexample to C8 as stated: `lowDescEx` equals `lowTitleEx` up to
punctuation (their punctuation-stripped normalized titles agree), the
description is 85 characters long, yet `is_low_value_news` returns `false`:
the equality branch compares punctuation-sensitively, the comma breaks the
startswith branch, and the comma-split first word drops the token overlap to
4/5 < 0.9. -/
theorem claim_C8_counterexample :
    normalize_title lowDescEx = normalize_title lowTitleEx ∧
    is_low_value_news lowItemEx = false := by
  refine ⟨by decide, ?_⟩
  simp only [is_low_value_news]
  rw [if_neg (by decide), if_neg (by decide), if_neg (by decide), if_neg (by decide),
    if_neg (by decide)]
  have e1 : (title_tokens (collapseWs ((pyStrip lowItemEx.title).map lowerChar))).card = 5 := by
    decide
  have e3 : ((title_tokens (collapseWs ((pyStrip lowItemEx.title).map lowerChar)) ∩
      title_tokens (collapseWs ((pyStrip lowItemEx.description).map lowerChar))).card) = 4 := by
    decide
  have hratio : ¬ ((9 : ℚ) / 10 ≤
      (((title_tokens (collapseWs ((pyStrip lowItemEx.title).map lowerChar)) ∩
        title_tokens (collapseWs ((pyStrip lowItemEx.description).map lowerChar))).card : ℚ) /
        max (title_tokens (collapseWs ((pyStrip lowItemEx.title).map lowerChar))).card 1)) := by
    rw [e1, e3]
    norm_num
  rw [decide_eq_false hratio]
  rw [show ∀ a b c : Bool, (a && b && false && c) = false by decide]
  rw [if_neg Bool.false_ne_true, if_neg (by decide)]

/-- Claim C8 (amended): the low-value filter is guaranteed to drop an item
whose description, after strip/lowercase/whitespace-collapse (the
normalization `is_low_value_news` actually performs — punctuation-sensitive),
equals its similarly normalized title; the punctuation-insensitive version of
the claim fails (see the counterexample). -/
theorem claim_C8_low_value_drop (news : RawItem)
    (h : collapseWs ((pyStrip news.description).map lowerChar) =
         collapseWs ((pyStrip news.title).map lowerChar)) :
    is_low_value_news news = true := by
  simp only [is_low_value_news, h, beq_self_eq_true, if_true, ite_self]

/-- Witness for C8: an item whose description is literally its title. -/
theorem claim_C8_witness :
    collapseWs ((pyStrip ({ lowItemEx with description := lowItemEx.title } : RawItem).description).map lowerChar) =
      collapseWs ((pyStrip ({ lowItemEx with description := lowItemEx.title } : RawItem).title).map lowerChar) ∧
    is_low_value_news { lowItemEx with description := lowItemEx.title } = true :=
  ⟨rfl, claim_C8_low_value_drop { lowItemEx with description := lowItemEx.title } rfl⟩

/-- Claim C9: when the inserted item's `news_hash` already exists,
`save_news` raises no error, returns the id of the already-stored row, and
leaves the stored rows unchanged. -/
theorem claim_C9_save_conflict (db : NewsDB) (title url source category : List Char)
    (published_at : ℚ) (description : List Char)
    (h : ∃ row ∈ db.rows, row.news_hash = generate_hash title url source) :
    (save_news db title url source category published_at description).2 = db ∧
    ∃ row ∈ db.rows, row.news_hash = generate_hash title url source ∧
      (save_news db title url source category published_at description).1 = some row.id := by
  have hs : (db.rows.find? (fun r => r.news_hash == generate_hash title url source)).isSome := by
    rw [List.find?_isSome]
    obtain ⟨r, hr, hh⟩ := h
    exact ⟨r, hr, by simp [hh]⟩
  obtain ⟨r, hr⟩ := Option.isSome_iff_exists.mp hs
  have hmem : r ∈ db.rows := List.mem_of_find?_eq_some hr
  have heq : r.news_hash = generate_hash title url source := by
    have := List.find?_some hr
    simpa using this
  simp only [save_news]
  rw [hr]
  exact ⟨rfl, r, hmem, heq, rfl⟩

/-- Witness for C9: saving the already-stored `dupRow` again. -/
theorem claim_C9_witness :
    (∃ row ∈ dupDB.rows, row.news_hash =
      generate_hash dupTitleB "https://old.example/b".toList "Agency".toList) ∧
    ((save_news dupDB dupTitleB "https://old.example/b".toList "Agency".toList
        "general".toList 999500 "another description".toList).2 = dupDB ∧
      ∃ row ∈ dupDB.rows, row.news_hash =
          generate_hash dupTitleB "https://old.example/b".toList "Agency".toList ∧
        (save_news dupDB dupTitleB "https://old.example/b".toList "Agency".toList
          "general".toList 999500 "another description".toList).1 = some row.id) :=
  ⟨by decide,
   claim_C9_save_conflict dupDB dupTitleB "https://old.example/b".toList "Agency".toList
     "general".toList 999500 "another description".toList (by decide)⟩

/-- Claim C10: merging never changes a pending topic's representative `title`
or `url` — after any sequence of merges they are still the first-arriving
item's `title` and `url`; and each single merge operation preserves both. -/
theorem claim_C10_representative_frame (news : RawItem) (T : ℚ)
    (merges : List (Topic ⊕ RawItem)) :
    ((merges.foldl applyMerge (mkTopic news T)).title = news.title ∧
      (merges.foldl applyMerge (mkTopic news T)).url = news.url) ∧
    ∀ (t : Topic) (m : Topic ⊕ RawItem),
      (applyMerge t m).title = t.title ∧ (applyMerge t m).url = t.url := by
  refine ⟨?_, fun t m => by cases m <;> exact ⟨rfl, rfl⟩⟩
  exact foldl_applyMerge_title_url merges (mkTopic news T)

end NewsBot
